import Mathlib

/-!
Shallow embedding of the tool-invocation pipeline implemented in
src/mcp-server-improved.js of the athena-mcp-server repository: the
response cache (getCachedResponse / setCachedResponse), the retry executor
(withRetry), input validation (validationSchemas / validateInput) and the
CallTool request handler (callTool), together with proofs about them.

Modelling conventions:
- JavaScript argument values are modelled by the flat inductive JSVal
  (strings, numbers, booleans, null); an absent property (undefined) is
  modelled by Option.none.  Numbers are modelled as Int: every numeric
  bound in the validation schemas is a small integer and the code performs
  no arithmetic on argument numbers, only order comparisons.
- JS Map objects and plain objects are modelled as association lists in
  insertion order, which is the iteration and serialization order of the
  original; keys are unique in every state the code can reach.
- Date.now() is passed in explicitly as a Nat millisecond timestamp.
- The external tool handlers (OpenAI, HTTP, system calls) are opaque: the
  pipeline model is parameterised by a handler function returning either a
  result string or a thrown JS error, and a handler that rejects is taken
  to reject identically on every attempt of the retry loop.
-/

namespace Athena

/-- A flat JavaScript value, as far as the validation layer inspects it. -/
inductive JSVal where
  | vStr (s : String)
  | vNum (n : Int)
  | vBool (b : Bool)
  | vNull
deriving DecidableEq

/-- A tool-call argument object: properties in insertion order. -/
abbrev Args := List (String × JSVal)

/-- Association-list lookup, first binding wins (JS property access /
Map.get; keys are unique in any state the code constructs). -/
def slookup {α : Type} : List (String × α) → String → Option α
  | [], _ => none
  | (k, v) :: rest, key => if k = key then some v else slookup rest key

/-- Map.set: overwrite an existing binding in place, else append. -/
def supdate {α : Type} : List (String × α) → String → α → List (String × α)
  | [], key, v => [(key, v)]
  | (k, v0) :: rest, key, v =>
    if k = key then (k, v) :: rest else (k, v0) :: supdate rest key v

/-- const CACHE_TTL = 300000 (5 minutes, milliseconds). -/
def CACHE_TTL : Nat := 300000

/-- const MAX_RETRIES = 3. -/
def MAX_RETRIES : Nat := 3

/-- const RETRY_DELAY_BASE = 1000 (1 second, milliseconds). -/
def RETRY_DELAY_BASE : Nat := 1000

/-- One entry of the module-level cache Map: data plus insertion time. -/
structure CacheEntry where
  data : String
  timestamp : Nat
deriving DecidableEq

abbrev Cache := List (String × CacheEntry)

/-- function getCachedResponse(key), lines 28-34: serve the stored data
only while the entry is strictly younger than CACHE_TTL, else null. -/
def getCachedResponse (cache : Cache) (key : String) (now : Nat) : Option String :=
  match slookup cache key with
  | some cached => if now - cached.timestamp < CACHE_TTL then some cached.data else none
  | none => none

/-- function setCachedResponse(key, data), lines 36-47: insert or
overwrite with the current timestamp; when the map then holds more than
1000 entries, delete every entry whose timestamp is strictly below the
cutoff now - CACHE_TTL. -/
def setCachedResponse (cache : Cache) (key : String) (data : String) (now : Nat) : Cache :=
  let c := supdate cache key ⟨data, now⟩
  if c.length > 1000 then
    c.filter (fun kv => !decide (kv.2.timestamp < now - CACHE_TTL))
  else
    c

/-- A thrown JavaScript error, as far as withRetry inspects it. -/
structure JsError where
  code : Option String
  status : Option Int
  message : String
deriving DecidableEq

/-- Line 58: errors that must not be retried, by code or HTTP status. -/
def nonRetryable (e : JsError) : Bool :=
  e.code == some "ENOTFOUND" || e.status == some 401 || e.status == some 403

/-- async function withRetry(operation, maxRetries = MAX_RETRIES),
lines 50-66.  `op i` is the outcome of the i-th invocation of the
operation.  Returns the final outcome (`.ok none` models the implicit
undefined returned when maxRetries = 0 and the loop body never runs), the
number of invocations performed, and the list of backoff delays awaited
in milliseconds.
The recursion is driven by the structural fuel argument, which counts the
loop iterations still allowed; the loop from index i is run with
fuel = maxRetries - i, and when the fuel runs out i is at least
maxRetries, which is exactly the for-loop exit (returning undefined), so
the two base cases coincide. -/
def withRetryGo (op : Nat → Except JsError String) (maxRetries : Nat) :
    Nat → Nat → Except JsError (Option String) × Nat × List Nat
  | 0, _ => (.ok none, 0, [])
  | fuel + 1, i =>
    if i < maxRetries then
      match op i with
      | .ok a => (.ok (some a), 1, [])
      | .error e =>
        if i = maxRetries - 1 then
          (.error e, 1, [])
        else if nonRetryable e then
          (.error e, 1, [])
        else
          let rest := withRetryGo op maxRetries fuel (i + 1)
          (rest.1, rest.2.1 + 1, RETRY_DELAY_BASE * 2 ^ i :: rest.2.2)
    else
      (.ok none, 0, [])

def withRetry (op : Nat → Except JsError String) (maxRetries : Nat) :
    Except JsError (Option String) × Nat × List Nat :=
  withRetryGo op maxRetries maxRetries 0

/-- `op i` failed with an error the classifier allows to be retried. -/
def retryableFail (r : Except JsError String) : Bool :=
  match r with
  | .error e => !nonRetryable e
  | .ok _ => false

/-- The two declared value kinds occurring in validationSchemas. -/
inductive JSType where
  | string
  | number
deriving DecidableEq

/-- One field's rule set inside const validationSchemas (lines 69-87). -/
structure FieldRules where
  required : Bool := false
  type : Option JSType := none
  minLength : Option Nat := none
  maxLength : Option Nat := none
  min : Option Int := none
  max : Option Int := none
  enum : Option (List String) := none
deriving DecidableEq

inductive ErrorCode where
  | invalidParams
  | methodNotFound
  | internalError
deriving DecidableEq

/-- new McpError(code, message). -/
structure McpError where
  code : ErrorCode
  message : String
deriving DecidableEq

def invalidParams (msg : String) : McpError := ⟨ErrorCode.invalidParams, msg⟩

def JSVal.isStr : JSVal → Bool
  | .vStr _ => true
  | _ => false

def JSVal.isNum : JSVal → Bool
  | .vNum _ => true
  | _ => false

/-- value.length < m.  Only strings carry a numeric length; for numbers
and booleans the JS comparison undefined < m is false, and null never
reaches a length rule in the registered schemas because its type rule
fires first on every field that declares a length bound. -/
def lenLt : JSVal → Nat → Bool
  | .vStr s, m => decide (s.length < m)
  | _, _ => false

/-- value.length > m, same conventions as lenLt. -/
def lenGt : JSVal → Nat → Bool
  | .vStr s, m => decide (s.length > m)
  | _, _ => false

/-- value < m.  The min/max rules are declared only on fields of type
number, whose type rule runs first, so only vNum values reach this
comparison in the registered schemas. -/
def numLt : JSVal → Int → Bool
  | .vNum n, m => decide (n < m)
  | _, _ => false

/-- value > m, same conventions as numLt. -/
def numGt : JSVal → Int → Bool
  | .vNum n, m => decide (n > m)
  | _, _ => false

/-- rules.enum.includes(value): strict equality against a string list. -/
def enumMember : JSVal → List String → Bool
  | .vStr s, l => l.contains s
  | _, _ => false

/-- Line 96: rules.required and the value undefined or null. -/
def requiredErr (field : String) (rules : FieldRules) (value : Option JSVal) :
    Option McpError :=
  if rules.required && (value == none || value == some JSVal.vNull) then
    some (invalidParams ("Missing required field: " ++ field))
  else none

/-- Line 101: declared string but the value is not a string. -/
def typeStringErr (field : String) (rules : FieldRules) (v : JSVal) : Option McpError :=
  if rules.type == some JSType.string && !v.isStr then
    some (invalidParams ("Field " ++ field ++ " must be a string"))
  else none

/-- Line 105: declared number but the value is not a number. -/
def typeNumberErr (field : String) (rules : FieldRules) (v : JSVal) : Option McpError :=
  if rules.type == some JSType.number && !v.isNum then
    some (invalidParams ("Field " ++ field ++ " must be a number"))
  else none

/-- Line 109: rules.minLength && value.length < rules.minLength (a bound
of 0 is falsy in JS and disables the rule). -/
def minLengthErr (field : String) (rules : FieldRules) (v : JSVal) : Option McpError :=
  match rules.minLength with
  | some m =>
    if m != 0 && lenLt v m then
      some (invalidParams
        ("Field " ++ field ++ " must be at least " ++ toString m ++ " characters"))
    else none
  | none => none

/-- Line 113: rules.maxLength && value.length > rules.maxLength. -/
def maxLengthErr (field : String) (rules : FieldRules) (v : JSVal) : Option McpError :=
  match rules.maxLength with
  | some m =>
    if m != 0 && lenGt v m then
      some (invalidParams
        ("Field " ++ field ++ " must be at most " ++ toString m ++ " characters"))
    else none
  | none => none

/-- Line 117: rules.min && value < rules.min. -/
def minErr (field : String) (rules : FieldRules) (v : JSVal) : Option McpError :=
  match rules.min with
  | some m =>
    if m != 0 && numLt v m then
      some (invalidParams ("Field " ++ field ++ " must be at least " ++ toString m))
    else none
  | none => none

/-- Line 121: rules.max && value > rules.max. -/
def maxErr (field : String) (rules : FieldRules) (v : JSVal) : Option McpError :=
  match rules.max with
  | some m =>
    if m != 0 && numGt v m then
      some (invalidParams ("Field " ++ field ++ " must be at most " ++ toString m))
    else none
  | none => none

/-- Line 125: rules.enum && not rules.enum.includes(value); an array is
always truthy in JS, so no emptiness guard. -/
def enumErr (field : String) (rules : FieldRules) (v : JSVal) : Option McpError :=
  match rules.enum with
  | some l =>
    if !enumMember v l then
      some (invalidParams
        ("Field " ++ field ++ " must be one of: " ++ String.intercalate ", " l))
    else none
  | none => none

/-- Lines 100-128: the checks applied to a present (not undefined) value,
in source order, stopping at the first thrown error. -/
def presentRuleErr (field : String) (rules : FieldRules) (v : JSVal) : Option McpError :=
  (typeStringErr field rules v).orElse fun _ =>
   (typeNumberErr field rules v).orElse fun _ =>
    (minLengthErr field rules v).orElse fun _ =>
     (maxLengthErr field rules v).orElse fun _ =>
      (minErr field rules v).orElse fun _ =>
       (maxErr field rules v).orElse fun _ =>
        enumErr field rules v

/-- The per-field body of the validation loop (lines 93-129). -/
def fieldCheck (field : String) (rules : FieldRules) (value : Option JSVal) :
    Except McpError Unit :=
  match requiredErr field rules value with
  | some e => .error e
  | none =>
    match value with
    | none => .ok ()
    | some v =>
      match presentRuleErr field rules v with
      | some e => .error e
      | none => .ok ()

/-- The field loop of validateInput: throw the first failing field's
error, in the schema's own field order. -/
def validateFields (schema : List (String × FieldRules)) (args : Args) :
    Except McpError Unit :=
  match schema with
  | [] => .ok ()
  | (field, rules) :: rest =>
    match fieldCheck field rules (slookup args field) with
    | .error e => .error e
    | .ok () => validateFields rest args

/-- const validationSchemas (lines 69-87), fields in source order. -/
def validationSchemas : List (String × List (String × FieldRules)) :=
  [ ("image_generate",
      [ ("prompt", { required := true, type := some JSType.string,
                     minLength := some 1, maxLength := some 1000 }),
        ("size", { type := some JSType.string,
                   enum := some ["256x256", "512x512", "1024x1024"] }),
        ("n", { type := some JSType.number, min := some 1, max := some 4 }) ]),
    ("analyze_code",
      [ ("code", { required := true, type := some JSType.string, minLength := some 1 }),
        ("language", { type := some JSType.string }),
        ("analysis_type", { type := some JSType.string,
                            enum := some ["review", "explain", "optimize", "debug"] }) ]),
    ("web_request",
      [ ("url", { required := true, type := some JSType.string }),
        ("method", { type := some JSType.string,
                     enum := some ["GET", "POST", "PUT", "DELETE", "PATCH"] }) ]),
    ("ask_athena",
      [ ("prompt", { required := true, type := some JSType.string,
                     minLength := some 1, maxLength := some 2000 }) ]) ]

def lookupSchema (toolName : String) : Option (List (String × FieldRules)) :=
  slookup validationSchemas toolName

/-- function validateInput(toolName, args), lines 89-132. -/
def validateInput (toolName : String) (args : Args) : Except McpError Unit :=
  match lookupSchema toolName with
  | none => .ok ()
  | some schema => validateFields schema args

/-- Section 4.1 of the specification, transcribed rule by rule: the
ordered rule list the validator applies to one declared field, each entry
none when the rule is satisfied and some error with the mandated message
when it is violated.  Rules 2-8 apply only to present values. -/
def specRuleErrs (field : String) (rules : FieldRules) (value : Option JSVal) :
    List (Option McpError) :=
  requiredErr field rules value ::
    match value with
    | none => []
    | some v =>
      [ typeStringErr field rules v, typeNumberErr field rules v,
        minLengthErr field rules v, maxLengthErr field rules v,
        minErr field rules v, maxErr field rules v, enumErr field rules v ]

/-- Section 4.1: the first violated rule of a field decides its outcome. -/
def specFieldCheck (field : String) (rules : FieldRules) (value : Option JSVal) :
    Except McpError Unit :=
  match (specRuleErrs field rules value).findSome? id with
  | some e => .error e
  | none => .ok ()

/-- Section 4.1: the first failing field, in schema field order,
short-circuits the whole validation; a tool name with no registered
schema passes unconditionally. -/
def specValidate (toolName : String) (args : Args) : Except McpError Unit :=
  match lookupSchema toolName with
  | none => .ok ()
  | some schema =>
    match schema.findSome? (fun fr =>
        match specFieldCheck fr.1 fr.2 (slookup args fr.1) with
        | .error e => some e
        | .ok () => none) with
    | some e => .error e
    | none => .ok ()

/-- The fields whose rules the validation loop evaluated: all of them on
success, the prefix up to and including the failing field on error. -/
def checkedFields (schema : List (String × FieldRules)) (args : Args) : List String :=
  match schema with
  | [] => []
  | (field, rules) :: rest =>
    match fieldCheck field rules (slookup args field) with
    | .error _ => [field]
    | .ok () => field :: checkedFields rest args

/-- JSON.stringify escaping for the characters this development uses. -/
def jsonEscapeChar (c : Char) : String :=
  if c = '\"' then "\\\""
  else if c = '\\' then "\\\\"
  else if c = '\n' then "\\n"
  else if c = '\t' then "\\t"
  else if c = '\r' then "\\r"
  else String.singleton c

def jsonEscape (s : String) : String :=
  String.join (s.toList.map jsonEscapeChar)

def jsonVal : JSVal → String
  | .vStr s => "\"" ++ jsonEscape s ++ "\""
  | .vNum n => toString n
  | .vBool b => if b then "true" else "false"
  | .vNull => "null"

/-- JSON.stringify(args) for a flat argument object: properties
serialized in insertion order. -/
def jsonStringify (args : Args) : String :=
  "\x7b" ++ String.intercalate ","
      (args.map (fun kv => "\"" ++ jsonEscape kv.1 ++ "\":" ++ jsonVal kv.2)) ++ "\x7d"

/-- Line 342: const cacheKey = `name:JSON.stringify(args)`. -/
def cacheKey (name : String) (args : Args) : String :=
  name ++ ":" ++ jsonStringify args

/-- The six tool names the CallTool switch dispatches (lines 350-371). -/
def registeredTools : List String :=
  ["ask_athena", "get_system_stats", "analyze_code", "generate_code",
   "image_generate", "web_request"]

/-- The allow-list of cache-served tools (lines 344 and 374). -/
def cacheableTools : List String := ["get_system_stats", "ask_athena"]

/-- JS truthiness of the value getCachedResponse returned: null is falsy,
and so is the empty string. -/
def jsTruthy : Option String → Bool
  | none => false
  | some s => s != ""

instance {ε α : Type} [DecidableEq ε] [DecidableEq α] : DecidableEq (Except ε α) :=
  fun x y =>
    match x, y with
    | .ok a, .ok b => decidable_of_iff (a = b) (by simp)
    | .ok _, .error _ => isFalse (by intro h; cases h)
    | .error _, .ok _ => isFalse (by intro h; cases h)
    | .error e, .error f => decidable_of_iff (e = f) (by simp)

/-- Everything observable about one run of the CallTool request handler:
the response or error, the cache afterwards, which schema fields the
validator processed, which keys were looked up in and stored into the
cache, how many times the underlying handler ran, and which backoff
delays were awaited. -/
structure CallOutcome where
  result : Except McpError String
  cache : Cache
  checkedFields : List String
  cacheLookups : List String
  handlerAttempts : Nat
  backoffDelays : List Nat
  cacheStores : List String
deriving DecidableEq

/-- The CallTool request handler (lines 334-392), parameterised by the
opaque per-tool handler behind handleAskAthena, handleGetSystemStats,
handleAnalyzeCode, handleGenerateCode, handleImageGenerate and
handleWebRequest, by the cache state and by the current time.  On success
the response text is the handler result, prefixed by the marker
"[CACHED] " when served from cache; thrown McpErrors (validation,
unknown tool) pass through unchanged, while a JS error surfacing from the
retry loop is wrapped as InternalError with the prefixed message of
line 389. -/
def callTool (handler : String → Args → Except JsError String)
    (cache : Cache) (now : Nat) (name : String) (args : Args) : CallOutcome :=
  let checked :=
    match lookupSchema name with
    | none => []
    | some schema => checkedFields schema args
  match validateInput name args with
  | .error e =>
    { result := .error e, cache := cache, checkedFields := checked,
      cacheLookups := [], handlerAttempts := 0, backoffDelays := [],
      cacheStores := [] }
  | .ok () =>
    let key := cacheKey name args
    let cached := getCachedResponse cache key now
    if jsTruthy cached && cacheableTools.contains name then
      { result := .ok ("[CACHED] " ++ cached.getD ""), cache := cache,
        checkedFields := checked, cacheLookups := [key], handlerAttempts := 0,
        backoffDelays := [], cacheStores := [] }
    else if registeredTools.contains name then
      let r := withRetry (fun _ => handler name args) MAX_RETRIES
      match r.1 with
      | .ok (some s) =>
        if cacheableTools.contains name then
          { result := .ok s, cache := setCachedResponse cache key s now,
            checkedFields := checked, cacheLookups := [key],
            handlerAttempts := r.2.1, backoffDelays := r.2.2,
            cacheStores := [key] }
        else
          { result := .ok s, cache := cache, checkedFields := checked,
            cacheLookups := [key], handlerAttempts := r.2.1,
            backoffDelays := r.2.2, cacheStores := [] }
      | .ok none =>
        -- not reachable: MAX_RETRIES = 3 > 0, the loop body always runs
        { result := .ok "", cache := cache, checkedFields := checked,
          cacheLookups := [key], handlerAttempts := r.2.1,
          backoffDelays := r.2.2, cacheStores := [] }
      | .error e =>
        { result :=
            .error ⟨ErrorCode.internalError, "Tool execution failed: " ++ e.message⟩,
          cache := cache, checkedFields := checked, cacheLookups := [key],
          handlerAttempts := r.2.1, backoffDelays := r.2.2, cacheStores := [] }
    else
      { result := .error ⟨ErrorCode.methodNotFound, "Unknown tool: " ++ name⟩,
        cache := cache, checkedFields := checked, cacheLookups := [key],
        handlerAttempts := 0, backoffDelays := [], cacheStores := [] }

/-! ## Helper lemmas about association lists and the cache -/

theorem slookup_supdate_self {α : Type} (l : List (String × α)) (key : String) (v : α) :
    slookup (supdate l key v) key = some v := by
  induction l with
  | nil => simp [supdate, slookup]
  | cons kv rest ih =>
    obtain ⟨k0, v0⟩ := kv
    by_cases h : k0 = key
    · simp [supdate, h, slookup]
    · simp [supdate, h, slookup, ih]

theorem slookup_filter_of_holds {α : Type} (l : List (String × α)) (key : String)
    (v : α) (p : String × α → Bool) (hl : slookup l key = some v)
    (hp : p (key, v) = true) : slookup (l.filter p) key = some v := by
  induction l with
  | nil => simp [slookup] at hl
  | cons kv rest ih =>
    obtain ⟨k0, v0⟩ := kv
    by_cases h : k0 = key
    · subst h
      simp [slookup] at hl
      subst hl
      simp [List.filter, hp, slookup]
    · simp [slookup, h] at hl
      by_cases hph : p (k0, v0) = true
      · simp [List.filter, hph, slookup, h]
        exact ih hl
      · rw [Bool.not_eq_true] at hph
        simp [List.filter, hph]
        exact ih hl

theorem setCachedResponse_slookup_self (c : Cache) (key data : String) (now : Nat) :
    slookup (setCachedResponse c key data now) key = some ⟨data, now⟩ := by
  unfold setCachedResponse
  by_cases h : (supdate c key (⟨data, now⟩ : CacheEntry)).length > 1000
  · simp only [h, if_true]
    apply slookup_filter_of_holds _ _ _ _ (slookup_supdate_self c key _)
    simp
  · simp only [h, if_false]
    exact slookup_supdate_self c key _

theorem getCached_after_set (c : Cache) (key data : String) (t1 t2 : Nat)
    (httl : t2 - t1 < CACHE_TTL) :
    getCachedResponse (setCachedResponse c key data t1) key t2 = some data := by
  unfold getCachedResponse
  rw [setCachedResponse_slookup_self]
  simp [httl]

/-! ## Helper lemmas about the retry executor -/

theorem withRetryGo_attempts_le (op : Nat → Except JsError String) (n : Nat) :
    ∀ (fuel i : Nat), (withRetryGo op n fuel i).2.1 ≤ n - i := by
  intro fuel
  induction fuel with
  | zero => intro i; simp [withRetryGo]
  | succ f ih =>
    intro i
    by_cases hi : i < n
    · simp only [withRetryGo, if_pos hi]
      cases op i with
      | ok a => simp; omega
      | error e =>
        by_cases h1 : i = n - 1
        · simp [h1]; omega
        · cases hnr : nonRetryable e
          · simp only [h1, if_false, hnr, Bool.false_eq_true]
            have := ih (i + 1)
            simp
            omega
          · simp [h1, hnr]; omega
    · simp [withRetryGo, if_neg hi]

theorem withRetryGo_success (op : Nat → Except JsError String) (n : Nat) (a : String) :
    ∀ (k i fuel : Nat), n - i ≤ fuel → i + k < n →
      (∀ j, j < k → retryableFail (op (i + j)) = true) → op (i + k) = .ok a →
      withRetryGo op n fuel i =
        (.ok (some a), k + 1,
          (List.range k).map fun j => RETRY_DELAY_BASE * 2 ^ (i + j)) := by
  intro k
  induction k with
  | zero =>
    intro i fuel hfuel hlt _ hok
    cases fuel with
    | zero => omega
    | succ f =>
      rw [Nat.add_zero] at hok
      simp [withRetryGo, if_pos (show i < n by omega), hok]
  | succ k ih =>
    intro i fuel hfuel hlt hretry hok
    cases fuel with
    | zero => omega
    | succ f =>
      have hi : i < n := by omega
      have h0 : retryableFail (op (i + 0)) = true := hretry 0 (by omega)
      rw [Nat.add_zero] at h0
      cases hop : op i with
      | ok b => rw [hop] at h0; simp [retryableFail] at h0
      | error e =>
        rw [hop] at h0
        have hnr : nonRetryable e = false := by
          simpa [retryableFail] using h0
        have hine : ¬ i = n - 1 := by omega
        have hrec := ih (i + 1) f (by omega) (by omega)
          (fun j hj => by
            have := hretry (j + 1) (by omega)
            rwa [show i + (j + 1) = i + 1 + j by omega] at this)
          (by rwa [show i + 1 + k = i + (k + 1) by omega])
        simp only [withRetryGo, if_pos hi, hop, if_neg hine, hnr, Bool.false_eq_true,
          if_false, hrec, Prod.mk.injEq]
        refine ⟨trivial, trivial, ?_⟩
        rw [List.range_succ_eq_map, List.map_cons, List.map_map]
        rw [Nat.add_zero]
        congr 1
        apply List.map_congr_left
        intro j _
        simp only [Function.comp, Nat.succ_eq_add_one]
        rw [show i + 1 + j = i + (j + 1) from by omega]
  
theorem withRetryGo_exhaust (op : Nat → Except JsError String) (n : Nat) (e : JsError) :
    ∀ (k i fuel : Nat), n - i ≤ fuel → i < n → i + k = n - 1 →
      (∀ j, j < k → retryableFail (op (i + j)) = true) → op (i + k) = .error e →
      withRetryGo op n fuel i =
        (.error e, k + 1,
          (List.range k).map fun j => RETRY_DELAY_BASE * 2 ^ (i + j)) := by
  intro k
  induction k with
  | zero =>
    intro i fuel hfuel hlt hlast _ herr
    cases fuel with
    | zero => omega
    | succ f =>
      rw [Nat.add_zero] at herr
      rw [Nat.add_zero] at hlast
      subst hlast
      simp [withRetryGo, if_pos hlt, herr]
      omega
  | succ k ih =>
    intro i fuel hfuel hlt hlast hretry herr
    cases fuel with
    | zero => omega
    | succ f =>
      have h0 : retryableFail (op (i + 0)) = true := hretry 0 (by omega)
      rw [Nat.add_zero] at h0
      cases hop : op i with
      | ok b => rw [hop] at h0; simp [retryableFail] at h0
      | error e0 =>
        rw [hop] at h0
        have hnr : nonRetryable e0 = false := by
          simpa [retryableFail] using h0
        have hine : ¬ i = n - 1 := by omega
        have hrec := ih (i + 1) f (by omega) (by omega) (by omega)
          (fun j hj => by
            have := hretry (j + 1) (by omega)
            rwa [show i + (j + 1) = i + 1 + j by omega] at this)
          (by rwa [show i + 1 + k = i + (k + 1) by omega])
        simp only [withRetryGo, if_pos hlt, hop, if_neg hine, hnr, Bool.false_eq_true,
          if_false, hrec, Prod.mk.injEq]
        refine ⟨trivial, trivial, ?_⟩
        rw [List.range_succ_eq_map, List.map_cons, List.map_map]
        rw [Nat.add_zero]
        congr 1
        apply List.map_congr_left
        intro j _
        simp only [Function.comp, Nat.succ_eq_add_one]
        rw [show i + 1 + j = i + (j + 1) from by omega]

theorem withRetry_nonretryable (op : Nat → Except JsError String) (n : Nat) (e : JsError)
    (hn : 0 < n) (herr : op 0 = .error e) (hnr : nonRetryable e = true) :
    withRetry op n = (.error e, 1, []) := by
  cases n with
  | zero => omega
  | succ m =>
    by_cases h0 : (0 : Nat) = m + 1 - 1
    · simp only [Nat.add_sub_cancel] at h0
      subst h0
      simp [withRetry, withRetryGo, herr]
    · simp [withRetry, withRetryGo, herr, h0, hnr]

theorem withRetry_const_ok (s : String) (n : Nat) (hn : 0 < n) :
    withRetry (fun _ => Except.ok s) n = (.ok (some s), 1, []) := by
  cases n with
  | zero => omega
  | succ m => simp [withRetry, withRetryGo]

theorem withRetry_const_error (e : JsError) (n : Nat) (hn : 0 < n) :
    (withRetry (fun _ => Except.error e) n).1 = .error e := by
  cases hnr : nonRetryable e
  · have h := withRetryGo_exhaust (fun _ => Except.error e) n e (n - 1) 0 n
      (by omega) (by omega) (by omega)
      (fun j _ => by simp [retryableFail, hnr]) rfl
    rw [withRetry, h]
  · rw [withRetry_nonretryable (fun _ => Except.error e) n e hn rfl hnr]

/-! ## Helper lemmas about validation -/

theorem fieldCheck_eq_spec (field : String) (rules : FieldRules) (value : Option JSVal) :
    fieldCheck field rules value = specFieldCheck field rules value := by
  unfold fieldCheck specFieldCheck specRuleErrs presentRuleErr
  cases value with
  | none => cases requiredErr field rules none <;> simp [List.findSome?]
  | some v =>
    cases h0 : requiredErr field rules (some v) <;>
      cases h1 : typeStringErr field rules v <;>
        cases h2 : typeNumberErr field rules v <;>
          cases h3 : minLengthErr field rules v <;>
            cases h4 : maxLengthErr field rules v <;>
              cases h5 : minErr field rules v <;>
                cases h6 : maxErr field rules v <;>
                  cases h7 : enumErr field rules v <;>
                    simp [List.findSome?, Option.orElse, h0, h1, h2, h3, h4, h5, h6, h7]

theorem validateFields_eq_spec (schema : List (String × FieldRules)) (args : Args) :
    validateFields schema args =
      match schema.findSome? (fun fr =>
          match specFieldCheck fr.1 fr.2 (slookup args fr.1) with
          | .error e => some e
          | .ok () => none) with
      | some e => Except.error e
      | none => Except.ok () := by
  induction schema with
  | nil => simp [validateFields, List.findSome?]
  | cons fr rest ih =>
    obtain ⟨field, rules⟩ := fr
    simp only [validateFields, List.findSome?]
    rw [fieldCheck_eq_spec]
    cases specFieldCheck field rules (slookup args field) with
    | error e => simp
    | ok u => cases u; simpa using ih

theorem validateInput_eq_spec (name : String) (args : Args) :
    validateInput name args = specValidate name args := by
  unfold validateInput specValidate
  cases lookupSchema name with
  | none => rfl
  | some schema => simpa using validateFields_eq_spec schema args

theorem validateFields_error_of_mem (schema : List (String × FieldRules)) (args : Args)
    (field : String) (rules : FieldRules) (e : McpError)
    (hmem : (field, rules) ∈ schema)
    (herr : fieldCheck field rules (slookup args field) = .error e) :
    ∃ e2, validateFields schema args = .error e2 := by
  induction schema with
  | nil => simp at hmem
  | cons fr rest ih =>
    obtain ⟨f0, r0⟩ := fr
    rcases List.mem_cons.mp hmem with heq | hmem2
    · rw [Prod.ext_iff] at heq
      obtain ⟨h1, h2⟩ := heq
      simp only at h1 h2
      subst h1
      subst h2
      refine ⟨e, ?_⟩
      simp [validateFields, herr]
    · cases h0 : fieldCheck f0 r0 (slookup args f0) with
      | error e0 => exact ⟨e0, by simp [validateFields, h0]⟩
      | ok u =>
        cases u
        have := ih hmem2
        simpa [validateFields, h0] using this

theorem fieldCheck_min_violation (field : String) (rules : FieldRules) (m v : Int)
    (htype : rules.type = some JSType.number) (hmin : rules.min = some m)
    (hm0 : m ≠ 0) (hlt : v < m) :
    fieldCheck field rules (some (JSVal.vNum v)) =
      .error (invalidParams ("Field " ++ field ++ " must be at least " ++ toString m)) := by
  obtain ⟨req, ty, minL, maxL, mi, ma, en⟩ := rules
  simp only at htype hmin
  subst htype
  subst hmin
  cases minL <;> cases maxL <;>
    simp [fieldCheck, requiredErr, presentRuleErr, typeStringErr, typeNumberErr,
      minLengthErr, maxLengthErr, minErr, lenLt, lenGt, numLt, JSVal.isNum, JSVal.isStr,
      Option.orElse, hm0, hlt]

theorem fieldCheck_max_violation (field : String) (rules : FieldRules) (m v : Int)
    (htype : rules.type = some JSType.number) (hmax : rules.max = some m)
    (hm0 : m ≠ 0) (hgt : m < v)
    (hminq : ∀ m2, rules.min = some m2 → ¬ v < m2) :
    fieldCheck field rules (some (JSVal.vNum v)) =
      .error (invalidParams ("Field " ++ field ++ " must be at most " ++ toString m)) := by
  obtain ⟨req, ty, minL, maxL, mi, ma, en⟩ := rules
  simp only at htype hmax hminq
  subst htype
  subst hmax
  cases minL <;> cases maxL <;> cases hmi : mi <;>
    simp only [fieldCheck, requiredErr, presentRuleErr, typeStringErr, typeNumberErr,
      minLengthErr, maxLengthErr, minErr, maxErr, lenLt, lenGt, numLt, numGt,
      JSVal.isNum, JSVal.isStr, Option.orElse, hm0, hgt] <;>
    simp [hm0, hgt]
  all_goals
    (first
      | rfl
      | (rename_i m2
         have := hminq m2 hmi
         simp [this, hm0, hgt]))

/-! ## Helper lemmas about tool names -/

theorem cacheable_imp_registered (name : String)
    (h : cacheableTools.contains name = true) : registeredTools.contains name = true := by
  simp [cacheableTools, List.contains] at h
  rcases h with h | h <;> subst h <;> decide

theorem not_registered_not_cacheable (name : String)
    (h : registeredTools.contains name = false) : cacheableTools.contains name = false := by
  by_contra hc
  rw [Bool.not_eq_false] at hc
  rw [cacheable_imp_registered name hc] at h
  cases h

theorem lookupSchema_eq_none (name : String)
    (h : registeredTools.contains name = false) : lookupSchema name = none := by
  have h1 : ¬ "image_generate" = name := by
    rintro rfl; rw [show registeredTools.contains "image_generate" = true from rfl] at h; cases h
  have h2 : ¬ "analyze_code" = name := by
    rintro rfl; rw [show registeredTools.contains "analyze_code" = true from rfl] at h; cases h
  have h3 : ¬ "web_request" = name := by
    rintro rfl; rw [show registeredTools.contains "web_request" = true from rfl] at h; cases h
  have h4 : ¬ "ask_athena" = name := by
    rintro rfl; rw [show registeredTools.contains "ask_athena" = true from rfl] at h; cases h
  simp [lookupSchema, validationSchemas, slookup, h1, h2, h3, h4]

/-! ## Helper lemmas for association-list extensionality -/

theorem slookup_eq_none_of_not_mem {α : Type} (l : List (String × α)) (k : String)
    (h : k ∉ l.map Prod.fst) : slookup l k = none := by
  induction l with
  | nil => rfl
  | cons kv rest ih =>
    obtain ⟨k0, v0⟩ := kv
    simp only [List.map_cons, List.mem_cons] at h
    push_neg at h
    obtain ⟨hne, hrest⟩ := h
    simp only [slookup]
    rw [if_neg (show ¬ k0 = k from fun hh => hne hh.symm)]
    exact ih hrest

theorem assoc_ext {α : Type} : ∀ (a1 a2 : List (String × α)),
    a1.map Prod.fst = a2.map Prod.fst → (a1.map Prod.fst).Nodup →
    (∀ k, slookup a1 k = slookup a2 k) → a1 = a2 := by
  intro a1
  induction a1 with
  | nil =>
    intro a2 hk _ _
    cases a2 with
    | nil => rfl
    | cons kv rest => simp at hk
  | cons kv rest ih =>
    intro a2 hk hnd hl
    obtain ⟨k0, v0⟩ := kv
    cases a2 with
    | nil => simp at hk
    | cons kv2 rest2 =>
      obtain ⟨k2, v2⟩ := kv2
      simp only [List.map_cons, List.cons.injEq] at hk
      obtain ⟨hk0, hkrest⟩ := hk
      subst hk0
      have hv : v0 = v2 := by
        have := hl k0
        simpa [slookup] using this
      subst hv
      simp only [List.map_cons, List.nodup_cons] at hnd
      obtain ⟨hk0nm, hndr⟩ := hnd
      have htail : rest = rest2 := by
        apply ih rest2 hkrest hndr
        intro k
        by_cases hkk : k = k0
        · subst hkk
          rw [slookup_eq_none_of_not_mem rest k hk0nm,
            slookup_eq_none_of_not_mem rest2 k (hkrest ▸ hk0nm)]
        · have := hl k
          rwa [slookup, slookup, if_neg (fun hh => hkk hh.symm),
            if_neg (fun hh => hkk hh.symm)] at this
      rw [htail]

/-! ## Concrete fixtures used by witnesses and counterexamples -/

/-- A handler that always succeeds with a non-empty payload. -/
def statsHandler : String → Args → Except JsError String := fun _ _ => .ok "stats"

/-- A handler that always succeeds with the empty string. -/
def emptyHandler : String → Args → Except JsError String := fun _ _ => .ok ""

/-- A handler that always rejects with an HTTP 401 error. -/
def authBoomHandler : String → Args → Except JsError String :=
  fun _ _ => .error ⟨none, some 401, "boom"⟩

/-- An operation that fails retryably once, then succeeds. -/
def flakyOp : Nat → Except JsError String :=
  fun i => if i = 0 then .error ⟨none, none, "transient"⟩ else .ok "done"

/-- An operation that always fails with a DNS resolution error. -/
def dnsOp : Nat → Except JsError String :=
  fun _ => .error ⟨some "ENOTFOUND", none, "dns"⟩

/-! ## Claim theorems -/

/-- C2 (confirmed): withRetry(operation, maxAttempts) invokes the
operation at most maxAttempts times and returns the result of the first
successful attempt immediately; each retryable failure at an attempt
index i strictly before the last is followed by a backoff delay of
RETRY_DELAY_BASE * 2 ^ i milliseconds (1000 then 2000 at the default of
three attempts), and a failure at the last attempt index maxAttempts - 1
re-raises that error to the caller with no further retries. -/
theorem C2_withRetry_contract (op : Nat → Except JsError String) (n k : Nat)
    (a : String) (e : JsError) :
    (withRetry op n).2.1 ≤ n ∧
    (k < n → (∀ j, j < k → retryableFail (op j) = true) → op k = .ok a →
      withRetry op n =
        (.ok (some a), k + 1, (List.range k).map fun j => RETRY_DELAY_BASE * 2 ^ j)) ∧
    (0 < n → (∀ j, j < n - 1 → retryableFail (op j) = true) → op (n - 1) = .error e →
      withRetry op n =
        (.error e, n, (List.range (n - 1)).map fun j => RETRY_DELAY_BASE * 2 ^ j)) := by
  refine ⟨?_, ?_, ?_⟩
  · have := withRetryGo_attempts_le op n n 0
    simpa [withRetry] using this
  · intro hk hretry hok
    have := withRetryGo_success op n a k 0 n (by omega) (by omega)
      (fun j hj => by simpa using hretry j hj) (by simpa using hok)
    simpa [withRetry] using this
  · intro hn hretry herr
    have := withRetryGo_exhaust op n e (n - 1) 0 n (by omega) (by omega) (by omega)
      (fun j hj => by simpa using hretry j hj) (by simpa using herr)
    rw [show n - 1 + 1 = n from by omega] at this
    simpa [withRetry] using this

/-- Witness for C2: an operation failing retryably once and then
succeeding is invoked twice, waits 1000 ms in between, and withRetry
returns its success. -/
theorem C2_witness : withRetry flakyOp 3 = (.ok (some "done"), 2, [1000]) := by
  have h := (C2_withRetry_contract flakyOp 3 1 "done" ⟨none, none, ""⟩).2.1
    (by decide) (by decide) (by decide)
  exact h.trans (by decide)

/-- C3 (confirmed): an error whose code is ENOTFOUND or whose status is
401 or 403 is re-raised by withRetry immediately regardless of remaining
attempts: the operation runs exactly once and no backoff delay occurs. -/
theorem C3_nonretryable_short_circuit (op : Nat → Except JsError String) (n : Nat)
    (e : JsError) (hn : 0 < n) (herr : op 0 = .error e)
    (hclass : e.code = some "ENOTFOUND" ∨ e.status = some 401 ∨ e.status = some 403) :
    withRetry op n = (.error e, 1, []) := by
  have hnr : nonRetryable e = true := by
    rcases hclass with h | h | h <;> simp [nonRetryable, h]
  exact withRetry_nonretryable op n e hn herr hnr

/-- Witness for C3: a DNS failure is surfaced after a single attempt
with no delays. -/
theorem C3_witness :
    withRetry dnsOp 3 = (.error ⟨some "ENOTFOUND", none, "dns"⟩, 1, []) :=
  C3_nonretryable_short_circuit dnsOp 3 _ (by decide) rfl (Or.inl rfl)

/-- Inverting a min bound over the concrete registry: the only field with
a min rule is image_generate.n, with bound 1 and declared type number. -/
theorem registry_min_cases (name : String) (schema : List (String × FieldRules))
    (field : String) (rules : FieldRules) (m : Int)
    (hmem : (name, schema) ∈ validationSchemas) (hf : (field, rules) ∈ schema)
    (hmin : rules.min = some m) :
    name = "image_generate" ∧ field = "n" ∧ m = 1 ∧
      rules.type = some JSType.number ∧ lookupSchema name = some schema := by
  simp only [validationSchemas, List.mem_cons, List.not_mem_nil, or_false] at hmem
  rcases hmem with h | h | h | h <;>
    (rw [Prod.ext_iff] at h
     obtain ⟨hn, hs⟩ := h
     simp only at hn hs
     subst hn
     subst hs
     simp only [List.mem_cons, List.not_mem_nil, or_false] at hf)
  · rcases hf with h2 | h2 | h2 <;>
      (rw [Prod.ext_iff] at h2
       obtain ⟨hfld, hrls⟩ := h2
       simp only at hfld hrls
       subst hfld
       subst hrls)
    · simp at hmin
    · simp at hmin
    · simp only [Option.some.injEq] at hmin
      subst hmin
      exact ⟨rfl, rfl, rfl, rfl, rfl⟩
  · rcases hf with h2 | h2 | h2 <;>
      (rw [Prod.ext_iff] at h2
       obtain ⟨hfld, hrls⟩ := h2
       simp only at hfld hrls
       subst hfld
       subst hrls) <;> simp at hmin
  · rcases hf with h2 | h2 <;>
      (rw [Prod.ext_iff] at h2
       obtain ⟨hfld, hrls⟩ := h2
       simp only at hfld hrls
       subst hfld
       subst hrls) <;> simp at hmin
  · rw [Prod.ext_iff] at hf
    obtain ⟨hfld, hrls⟩ := hf
    simp only at hfld hrls
    subst hfld
    subst hrls
    simp at hmin

/-- Inverting a max bound over the concrete registry: the only field with
a max rule is image_generate.n, with bound 4, type number and min 1. -/
theorem registry_max_cases (name : String) (schema : List (String × FieldRules))
    (field : String) (rules : FieldRules) (m : Int)
    (hmem : (name, schema) ∈ validationSchemas) (hf : (field, rules) ∈ schema)
    (hmax : rules.max = some m) :
    name = "image_generate" ∧ field = "n" ∧ m = 4 ∧
      rules.type = some JSType.number ∧ rules.min = some 1 ∧
      lookupSchema name = some schema := by
  simp only [validationSchemas, List.mem_cons, List.not_mem_nil, or_false] at hmem
  rcases hmem with h | h | h | h <;>
    (rw [Prod.ext_iff] at h
     obtain ⟨hn, hs⟩ := h
     simp only at hn hs
     subst hn
     subst hs
     simp only [List.mem_cons, List.not_mem_nil, or_false] at hf)
  · rcases hf with h2 | h2 | h2 <;>
      (rw [Prod.ext_iff] at h2
       obtain ⟨hfld, hrls⟩ := h2
       simp only at hfld hrls
       subst hfld
       subst hrls)
    · simp at hmax
    · simp at hmax
    · simp only [Option.some.injEq] at hmax
      subst hmax
      exact ⟨rfl, rfl, rfl, rfl, rfl, rfl⟩
  · rcases hf with h2 | h2 | h2 <;>
      (rw [Prod.ext_iff] at h2
       obtain ⟨hfld, hrls⟩ := h2
       simp only at hfld hrls
       subst hfld
       subst hrls) <;> simp at hmax
  · rcases hf with h2 | h2 <;>
      (rw [Prod.ext_iff] at h2
       obtain ⟨hfld, hrls⟩ := h2
       simp only at hfld hrls
       subst hfld
       subst hrls) <;> simp at hmax
  · rw [Prod.ext_iff] at hf
    obtain ⟨hfld, hrls⟩ := hf
    simp only at hfld hrls
    subst hfld
    subst hrls
    simp at hmax

/-- C4 (confirmed): validateInput passes unconditionally when no schema is
registered for the tool name; otherwise it coincides with the
specification validator, which applies each declared field's rules in the
listed order (required; string type; number type; minLength; maxLength;
min; max; enum) and fails with exactly the first violated rule's
InvalidParams message; in particular, for every registered schema field
carrying a min bound, a present numeric value strictly below the bound
makes the validation fail, and likewise a present numeric value strictly
above a registered max bound. -/
theorem C4_validation_contract (name : String) (args : Args)
    (schema : List (String × FieldRules)) (field : String) (rules : FieldRules)
    (m v : Int) :
    (lookupSchema name = none → validateInput name args = .ok ()) ∧
    (validateInput name args = specValidate name args) ∧
    ((name, schema) ∈ validationSchemas → (field, rules) ∈ schema →
      rules.min = some m → slookup args field = some (JSVal.vNum v) → v < m →
      ∃ e, validateInput name args = .error e) ∧
    ((name, schema) ∈ validationSchemas → (field, rules) ∈ schema →
      rules.max = some m → slookup args field = some (JSVal.vNum v) → m < v →
      ∃ e, validateInput name args = .error e) := by
  refine ⟨?_, validateInput_eq_spec name args, ?_, ?_⟩
  · intro h
    simp [validateInput, h]
  · intro hmem hf hmin hv hlt
    obtain ⟨rfl, rfl, rfl, htype, hls⟩ :=
      registry_min_cases name schema field rules m hmem hf hmin
    have hfc := fieldCheck_min_violation "n" rules 1 v htype hmin (by decide) hlt
    rw [← hv] at hfc
    obtain ⟨e2, he2⟩ := validateFields_error_of_mem schema args "n" rules _ hf hfc
    refine ⟨e2, ?_⟩
    simp only [validateInput, hls]
    exact he2
  · intro hmem hf hmax hv hgt
    obtain ⟨rfl, rfl, rfl, htype, hmin1, hls⟩ :=
      registry_max_cases name schema field rules m hmem hf hmax
    have hfc := fieldCheck_max_violation "n" rules 4 v htype hmax (by decide) hgt
      (fun m2 hm2 => by
        rw [hmin1] at hm2
        simp only [Option.some.injEq] at hm2
        omega)
    rw [← hv] at hfc
    obtain ⟨e2, he2⟩ := validateFields_error_of_mem schema args "n" rules _ hf hfc
    refine ⟨e2, ?_⟩
    simp only [validateInput, hls]
    exact he2

/-- Witness for C4: an unregistered tool name passes with any arguments,
an n below the min bound of image_generate fails, and an n above the max
bound fails. -/
theorem C4_witness :
    validateInput "frobnicate" [("x", JSVal.vNum 0)] = .ok () ∧
    (∃ e, validateInput "image_generate"
        [("prompt", JSVal.vStr "a"), ("n", JSVal.vNum 0)] = .error e) ∧
    (∃ e, validateInput "image_generate"
        [("prompt", JSVal.vStr "a"), ("n", JSVal.vNum 5)] = .error e) := by
  refine ⟨?_, ?_, ?_⟩
  · exact (C4_validation_contract "frobnicate" [("x", JSVal.vNum 0)] [] "" {} 0 0).1
      (by decide)
  · exact (C4_validation_contract "image_generate"
      [("prompt", JSVal.vStr "a"), ("n", JSVal.vNum 0)]
      [ ("prompt", { required := true, type := some JSType.string,
                     minLength := some 1, maxLength := some 1000 }),
        ("size", { type := some JSType.string,
                   enum := some ["256x256", "512x512", "1024x1024"] }),
        ("n", { type := some JSType.number, min := some 1, max := some 4 }) ]
      "n" { type := some JSType.number, min := some 1, max := some 4 } 1 0).2.2.1
      (by decide) (by decide) rfl (by decide) (by decide)
  · exact (C4_validation_contract "image_generate"
      [("prompt", JSVal.vStr "a"), ("n", JSVal.vNum 5)]
      [ ("prompt", { required := true, type := some JSType.string,
                     minLength := some 1, maxLength := some 1000 }),
        ("size", { type := some JSType.string,
                   enum := some ["256x256", "512x512", "1024x1024"] }),
        ("n", { type := some JSType.number, min := some 1, max := some 4 }) ]
      "n" { type := some JSType.number, min := some 1, max := some 4 } 4 5).2.2.2
      (by decide) (by decide) rfl (by decide) (by decide)

/-- C10 (confirmed): a schema field that is not required but declares
type string (respectively number) rejects an explicitly passed null with
the message "Field (field) must be a string" (respectively "... must be a
number"), while for a required field null counts as absent and produces
the missing-field message; concretely for image_generate, a null size
fails as not-a-string and a null n fails as not-a-number. -/
theorem C10_null_fails_type_check (field : String) (rules : FieldRules) :
    (rules.required = false → rules.type = some JSType.string →
      fieldCheck field rules (some JSVal.vNull) =
        .error (invalidParams ("Field " ++ field ++ " must be a string"))) ∧
    (rules.required = false → rules.type = some JSType.number →
      fieldCheck field rules (some JSVal.vNull) =
        .error (invalidParams ("Field " ++ field ++ " must be a number"))) ∧
    (rules.required = true →
      fieldCheck field rules (some JSVal.vNull) =
        .error (invalidParams ("Missing required field: " ++ field))) ∧
    (validateInput "image_generate" [("prompt", JSVal.vStr "a"), ("size", JSVal.vNull)] =
      .error (invalidParams "Field size must be a string")) ∧
    (validateInput "image_generate" [("prompt", JSVal.vStr "a"), ("n", JSVal.vNull)] =
      .error (invalidParams "Field n must be a number")) := by
  refine ⟨?_, ?_, ?_, by decide, by decide⟩
  · intro hreq htype
    simp [fieldCheck, requiredErr, presentRuleErr, typeStringErr, hreq, htype,
      JSVal.isStr, Option.orElse]
  · intro hreq htype
    simp [fieldCheck, requiredErr, presentRuleErr, typeStringErr, typeNumberErr,
      hreq, htype, JSVal.isStr, JSVal.isNum, Option.orElse]
  · intro hreq
    simp [fieldCheck, requiredErr, hreq]

/-- Witness for C10: the size rules of image_generate reject an explicit
null as not-a-string. -/
theorem C10_witness :
    fieldCheck "size"
      { type := some JSType.string,
        enum := some ["256x256", "512x512", "1024x1024"] } (some JSVal.vNull) =
      .error (invalidParams "Field size must be a string") :=
  ((C10_null_fails_type_check "size"
      { type := some JSType.string,
        enum := some ["256x256", "512x512", "1024x1024"] }).1 rfl rfl).trans (by decide)

/-- C5 (corrected): cache lookup returns the stored data exactly when an
entry for the key exists and its age is strictly below the 5-minute
CACHE_TTL; cache store inserts or overwrites the entry with the current
timestamp; no sweep happens while at most 1000 entries result, and when
more than 1000 entries result from the insertion the sweep keeps exactly
the entries whose age is at most CACHE_TTL - that is, it removes the
entries whose age strictly exceeds the TTL, not (as the claim states)
every entry of age at least the TTL. -/
theorem C5_cache_contract (c : Cache) (key data : String) (now : Nat) (d : String)
    (kv : String × CacheEntry) :
    (getCachedResponse c key now = some d ↔
      ∃ ts, slookup c key = some ⟨d, ts⟩ ∧ now - ts < CACHE_TTL) ∧
    (slookup (setCachedResponse c key data now) key = some ⟨data, now⟩) ∧
    ((supdate c key ⟨data, now⟩).length ≤ 1000 →
      setCachedResponse c key data now = supdate c key ⟨data, now⟩) ∧
    (1000 < (supdate c key ⟨data, now⟩).length →
      (kv ∈ setCachedResponse c key data now ↔
        kv ∈ supdate c key ⟨data, now⟩ ∧ now - kv.2.timestamp ≤ CACHE_TTL)) := by
  refine ⟨?_, setCachedResponse_slookup_self c key data now, ?_, ?_⟩
  · unfold getCachedResponse
    cases h : slookup c key with
    | none => simp [h]
    | some e0 =>
      obtain ⟨dd, ts⟩ := e0
      simp only [h]
      by_cases hage : now - ts < CACHE_TTL
      · simp only [if_pos hage, Option.some.injEq, CacheEntry.mk.injEq]
        constructor
        · rintro rfl
          exact ⟨ts, ⟨rfl, rfl⟩, hage⟩
        · rintro ⟨ts2, ⟨hd, hts⟩, _⟩
          exact hd
      · simp only [if_neg hage]
        constructor
        · intro hh
          exact absurd hh (by simp)
        · rintro ⟨ts2, ⟨hd, rfl⟩, hage2⟩
          exact absurd hage2 hage
  · intro hle
    unfold setCachedResponse
    rw [if_neg (by omega)]
  · intro hgt
    unfold setCachedResponse
    rw [if_pos hgt]
    simp only [List.mem_filter, Bool.not_eq_true', decide_eq_false_iff_not, Nat.not_lt]
    apply and_congr_right
    intro _
    simp only [CACHE_TTL]
    omega

/-- A cache holding 1001 entries, whose entry at key "stale" has age
exactly CACHE_TTL at time 600000. -/
def bigCache : Cache :=
  ("stale", ⟨"old", 300000⟩) ::
    (List.range 1000).map (fun i => (toString i, ⟨"d", 600000⟩))

set_option maxRecDepth 100000 in
/-- Counterexample for C5: storing a further entry into a cache of 1001
entries triggers the sweep, yet the entry whose age is exactly CACHE_TTL
survives it even though lookup refuses to serve it - so the sweep does
not remove every entry of age at least the TTL and stale entries can
remain. -/
theorem C5_counterexample :
    1000 < (supdate bigCache "new" ⟨"d", 600000⟩).length ∧
    slookup (setCachedResponse bigCache "new" "d" 600000) "stale" =
      some ⟨"old", 300000⟩ ∧
    600000 - 300000 = CACHE_TTL ∧
    getCachedResponse (setCachedResponse bigCache "new" "d" 600000) "stale" 600000 =
      none := by
  refine ⟨by decide, by decide, by decide, by decide⟩

set_option maxRecDepth 100000 in
/-- Witness for C5: a fresh entry is served, a store is visible at its
key, a small store does not sweep, and the surviving exactly-TTL-old
entry of the counterexample cache is reachable through the amended sweep
characterisation. -/
theorem C5_witness :
    getCachedResponse [("k", ⟨"v", 0⟩)] "k" 10 = some "v" ∧
    slookup (setCachedResponse [] "k" "v" 5) "k" = some ⟨"v", 5⟩ ∧
    setCachedResponse [] "k" "v" 5 = supdate [] "k" ⟨"v", 5⟩ ∧
    (("stale", ⟨"old", 300000⟩) ∈ setCachedResponse bigCache "new" "d" 600000) := by
  refine ⟨?_, ?_, ?_, ?_⟩
  · exact (C5_cache_contract [("k", ⟨"v", 0⟩)] "k" "x" 10 "v" ("", ⟨"", 0⟩)).1.mpr
      ⟨0, rfl, by decide⟩
  · exact (C5_cache_contract [] "k" "v" 5 "" ("", ⟨"", 0⟩)).2.1
  · exact (C5_cache_contract [] "k" "v" 5 "" ("", ⟨"", 0⟩)).2.2.1 (by decide)
  · exact ((C5_cache_contract bigCache "new" "d" 600000 ""
      ("stale", ⟨"old", 300000⟩)).2.2.2 (by decide)).mpr ⟨by decide, by decide⟩

/-- C8 (corrected): the cache key is a deterministic function of the tool
name and the argument object, and two argument objects with the same
fields in the same order, without duplicates, bound to equal values yield
identical key strings; JSON.stringify serializes properties in insertion
order, however, so maps with the same fields bound to equal values but in
different orders yield different keys, contrary to the claim. -/
theorem C8_cache_key_deterministic (name : String) (a1 a2 : Args)
    (hkeys : a1.map Prod.fst = a2.map Prod.fst)
    (hnodup : (a1.map Prod.fst).Nodup)
    (hlook : ∀ k, slookup a1 k = slookup a2 k) :
    cacheKey name a1 = cacheKey name a2 := by
  rw [assoc_ext a1 a2 hkeys hnodup hlook]

/-- Witness for C8: equal argument objects give the equal key. -/
theorem C8_witness :
    cacheKey "t" [("a", JSVal.vNum 1)] = cacheKey "t" [("a", JSVal.vNum 1)] :=
  C8_cache_key_deterministic "t" [("a", JSVal.vNum 1)] [("a", JSVal.vNum 1)] rfl
    (by decide) (fun _ => rfl)

/-- Counterexample for C8: two structurally identical argument maps (the
same fields bound to equal values, checked for every key) presented in
different insertion orders produce different cache keys. -/
theorem C8_counterexample :
    (∀ k, slookup [("a", JSVal.vNum 1), ("b", JSVal.vNum 2)] k =
        slookup [("b", JSVal.vNum 2), ("a", JSVal.vNum 1)] k) ∧
    cacheKey "t" [("a", JSVal.vNum 1), ("b", JSVal.vNum 2)] ≠
      cacheKey "t" [("b", JSVal.vNum 2), ("a", JSVal.vNum 1)] := by
  constructor
  · intro k
    by_cases h1 : "a" = k
    · subst h1
      decide
    · by_cases h2 : "b" = k
      · subst h2
        decide
      · simp [slookup, h1, h2]
  · decide

/-- C1 (corrected): for a cacheable tool, a validated call that misses
the cache and whose handler succeeds with a non-empty payload runs the
handler exactly once, and a second call with identical arguments within
the TTL window runs the handler zero times and answers with the first
payload prefixed by the visible "[CACHED] " marker.  The non-emptiness
restriction is forced by the code: the call-site truthiness test treats a
cached empty-string payload as a miss and re-executes the handler, so the
claim does not hold for every payload. -/
theorem C1_cache_idempotence (handler : String → Args → Except JsError String)
    (cache : Cache) (t1 t2 : Nat) (name : String) (args : Args) (s : String)
    (hname : cacheableTools.contains name = true)
    (hvalid : validateInput name args = .ok ())
    (hmiss : jsTruthy (getCachedResponse cache (cacheKey name args) t1) = false)
    (hsucc : handler name args = .ok s)
    (hne : s ≠ "")
    (httl : t2 - t1 < CACHE_TTL) :
    (callTool handler cache t1 name args).result = .ok s ∧
    (callTool handler cache t1 name args).handlerAttempts = 1 ∧
    (callTool handler (callTool handler cache t1 name args).cache t2 name args).result
        = .ok ("[CACHED] " ++ s) ∧
    (callTool handler (callTool handler cache t1 name args).cache t2 name
        args).handlerAttempts = 0 := by
  have hreg := cacheable_imp_registered name hname
  have hreg2 : name ∈ registeredTools := by simpa using hreg
  have hname2 : name ∈ cacheableTools := by simpa using hname
  have hwr : withRetry (fun _ => handler name args) MAX_RETRIES = (.ok (some s), 1, []) := by
    simp only [hsucc]
    exact withRetry_const_ok s MAX_RETRIES (by decide)
  have h1 : (callTool handler cache t1 name args).result = .ok s := by
    simp [callTool, hvalid, hmiss, hreg2, hname2, hwr]
  have h2 : (callTool handler cache t1 name args).handlerAttempts = 1 := by
    simp [callTool, hvalid, hmiss, hreg2, hname2, hwr]
  have hcache : (callTool handler cache t1 name args).cache =
      setCachedResponse cache (cacheKey name args) s t1 := by
    simp [callTool, hvalid, hmiss, hreg2, hname2, hwr]
  have hhit : getCachedResponse (setCachedResponse cache (cacheKey name args) s t1)
      (cacheKey name args) t2 = some s :=
    getCached_after_set cache (cacheKey name args) s t1 t2 httl
  have htr : jsTruthy (some s) = true := by simp [jsTruthy, hne]
  have h3 : (callTool handler (setCachedResponse cache (cacheKey name args) s t1) t2
      name args).result = .ok ("[CACHED] " ++ s) := by
    simp [callTool, hvalid, hhit, htr, hname2]
  have h4 : (callTool handler (setCachedResponse cache (cacheKey name args) s t1) t2
      name args).handlerAttempts = 0 := by
    simp [callTool, hvalid, hhit, htr, hname2]
  refine ⟨h1, h2, ?_, ?_⟩
  · rw [hcache]
    exact h3
  · rw [hcache]
    exact h4

/-- Witness for C1: a get_system_stats call with payload "stats" runs the
handler once and the repeat call one millisecond later is served from
cache with the marker and zero handler executions. -/
theorem C1_witness :
    (callTool statsHandler [] 0 "get_system_stats" []).result = .ok "stats" ∧
    (callTool statsHandler [] 0 "get_system_stats" []).handlerAttempts = 1 ∧
    (callTool statsHandler (callTool statsHandler [] 0 "get_system_stats" []).cache 1
        "get_system_stats" []).result = .ok ("[CACHED] " ++ "stats") ∧
    (callTool statsHandler (callTool statsHandler [] 0 "get_system_stats" []).cache 1
        "get_system_stats" []).handlerAttempts = 0 :=
  C1_cache_idempotence statsHandler [] 0 1 "get_system_stats" [] "stats" (by decide)
    (by decide) (by decide) rfl (by decide) (by decide)

/-- Counterexample for C1: with a handler whose successful payload is the
empty string, the first call stores "" in the cache, but the second call
within the TTL window treats the falsy cached value as a miss: the
handler executes again (two executions in total, one per call) and the
second response carries no cache marker. -/
theorem C1_counterexample :
    (callTool emptyHandler [] 0 "get_system_stats" []).result = .ok "" ∧
    (callTool emptyHandler [] 0 "get_system_stats" []).handlerAttempts = 1 ∧
    (callTool emptyHandler (callTool emptyHandler [] 0 "get_system_stats" []).cache 1
        "get_system_stats" []).handlerAttempts = 1 ∧
    (callTool emptyHandler (callTool emptyHandler [] 0 "get_system_stats" []).cache 1
        "get_system_stats" []).result = .ok "" := by
  refine ⟨by decide, by decide, by decide, by decide⟩

/-- C6 (corrected): when a tool handler ultimately raises - after the
retry executor exhausts its attempts, or immediately on a non-retryable
error - the invocation surfaces an InternalError whose message is
"Tool execution failed: " followed by the underlying cause's message; the
original message is preserved as a suffix, but the surfaced message is a
prefixed re-wording rather than the cause's message itself, contrary to
the claim. -/
theorem C6_internal_error_wraps_message (handler : String → Args → Except JsError String)
    (cache : Cache) (now : Nat) (name : String) (args : Args) (e : JsError)
    (hreg : registeredTools.contains name = true)
    (hvalid : validateInput name args = .ok ())
    (hnohit : (jsTruthy (getCachedResponse cache (cacheKey name args) now)
        && cacheableTools.contains name) = false)
    (hfail : handler name args = .error e) :
    (callTool handler cache now name args).result =
      .error ⟨ErrorCode.internalError, "Tool execution failed: " ++ e.message⟩ ∧
    (callTool handler cache now name args).cache = cache := by
  have hwr : (withRetry (fun _ => handler name args) MAX_RETRIES).1 = .error e := by
    simp only [hfail]
    exact withRetry_const_error e MAX_RETRIES (by decide)
  cases hr : (withRetry (fun _ => handler name args) MAX_RETRIES).1 with
  | ok o => rw [hr] at hwr; cases hwr
  | error e2 =>
    rw [hr] at hwr
    cases hwr
    constructor <;>
      (simp only [callTool, hvalid, hnohit, hreg, hr]
       simp)

/-- Witness for C6: a generate_code handler failing with a 401 error
whose message is "boom" surfaces InternalError with the prefixed message
and leaves the cache unchanged. -/
theorem C6_witness :
    (callTool authBoomHandler [] 0 "generate_code" []).result =
      .error ⟨ErrorCode.internalError, "Tool execution failed: " ++ "boom"⟩ ∧
    (callTool authBoomHandler [] 0 "generate_code" []).cache = [] :=
  C6_internal_error_wraps_message authBoomHandler [] 0 "generate_code" []
    ⟨none, some 401, "boom"⟩ (by decide) (by decide) (by decide) rfl

/-- Counterexample for C6: the surfaced message for an underlying cause
"boom" is "Tool execution failed: boom", which is not the underlying
cause's message itself. -/
theorem C6_counterexample :
    (callTool authBoomHandler [] 0 "generate_code" []).result =
      .error ⟨ErrorCode.internalError, "Tool execution failed: boom"⟩ ∧
    ("Tool execution failed: boom" : String) ≠ "boom" := by
  refine ⟨by decide, by decide⟩

/-- C7 (corrected): invoking a tool name with no registered handler
returns MethodNotFound carrying the unknown name, distinct from
validation and execution errors; no validation rule is evaluated, the
cache is unchanged, nothing is stored, and the retry executor is never
entered - but, contrary to the claim, a read-only cache lookup of the
computed key does occur before the dispatch switch rejects the name. -/
theorem C7_unknown_tool (handler : String → Args → Except JsError String)
    (cache : Cache) (now : Nat) (name : String) (args : Args)
    (h : registeredTools.contains name = false) :
    (callTool handler cache now name args).result =
      .error ⟨ErrorCode.methodNotFound, "Unknown tool: " ++ name⟩ ∧
    (callTool handler cache now name args).cache = cache ∧
    (callTool handler cache now name args).checkedFields = [] ∧
    (callTool handler cache now name args).handlerAttempts = 0 ∧
    (callTool handler cache now name args).backoffDelays = [] ∧
    (callTool handler cache now name args).cacheStores = [] ∧
    (callTool handler cache now name args).cacheLookups = [cacheKey name args] := by
  have hns := lookupSchema_eq_none name h
  have hcf := not_registered_not_cacheable name h
  have hval : validateInput name args = .ok () := by simp [validateInput, hns]
  refine ⟨?_, ?_, ?_, ?_, ?_, ?_, ?_⟩ <;>
    (simp only [callTool, hval, hns, hcf, h, Bool.and_false]
     simp)

/-- Witness for C7: invoking the unregistered name "frobnicate". -/
theorem C7_witness :
    (callTool statsHandler [] 0 "frobnicate" []).result =
      .error ⟨ErrorCode.methodNotFound, "Unknown tool: " ++ "frobnicate"⟩ ∧
    (callTool statsHandler [] 0 "frobnicate" []).cache = [] ∧
    (callTool statsHandler [] 0 "frobnicate" []).checkedFields = [] ∧
    (callTool statsHandler [] 0 "frobnicate" []).handlerAttempts = 0 ∧
    (callTool statsHandler [] 0 "frobnicate" []).backoffDelays = [] ∧
    (callTool statsHandler [] 0 "frobnicate" []).cacheStores = [] ∧
    (callTool statsHandler [] 0 "frobnicate" []).cacheLookups =
      [cacheKey "frobnicate" []] :=
  C7_unknown_tool statsHandler [] 0 "frobnicate" [] (by decide)

/-- Counterexample for C7: the unknown-name invocation does perform a
cache lookup (of the key "frobnicate:\x7b\x7d"), so the claim's "no cache
lookup occurs" is false even though MethodNotFound is returned. -/
theorem C7_counterexample :
    (callTool statsHandler [] 0 "frobnicate" []).result =
      .error ⟨ErrorCode.methodNotFound, "Unknown tool: frobnicate"⟩ ∧
    (callTool statsHandler [] 0 "frobnicate" []).cacheLookups ≠ [] := by
  refine ⟨by decide, by decide⟩

/-- C9 (confirmed): every invocation that terminates in an error - a
validation failure, an unknown tool name, or an execution failure after
retries - leaves the cache unchanged and stores nothing; moreover a
validation failure happens before any cache access, so not even a lookup
occurs. -/
theorem C9_errors_leave_cache_unchanged (handler : String → Args → Except JsError String)
    (cache : Cache) (now : Nat) (name : String) (args : Args) :
    (∀ e, (callTool handler cache now name args).result = .error e →
      (callTool handler cache now name args).cache = cache ∧
      (callTool handler cache now name args).cacheStores = []) ∧
    (∀ e, validateInput name args = .error e →
      (callTool handler cache now name args).cacheLookups = [] ∧
      (callTool handler cache now name args).cacheStores = [] ∧
      (callTool handler cache now name args).cache = cache) := by
  cases hval : validateInput name args with
  | error e0 =>
    constructor
    · intro e _
      constructor <;> simp [callTool, hval]
    · intro e _
      refine ⟨?_, ?_, ?_⟩ <;> simp [callTool, hval]
  | ok u =>
    cases u
    constructor
    · intro e he
      cases hcond : (jsTruthy (getCachedResponse cache (cacheKey name args) now)
          && cacheableTools.contains name) with
      | true =>
        exfalso
        simp only [callTool, hval, hcond] at he
        simp at he
      | false =>
        cases hreg : registeredTools.contains name with
        | false =>
          constructor <;> (simp only [callTool, hval, hcond, hreg]; simp)
        | true =>
          cases hr : (withRetry (fun _ => handler name args) MAX_RETRIES).1 with
          | ok o =>
            cases o with
            | some s2 =>
              exfalso
              cases hcc : cacheableTools.contains name with
              | true =>
                have hjt : jsTruthy (getCachedResponse cache (cacheKey name args) now)
                    = false := by
                  rw [hcc, Bool.and_true] at hcond
                  exact hcond
                simp only [callTool, hval, hcond, hreg, hr, hcc, hjt] at he
                simp at he
              | false =>
                simp only [callTool, hval, hcond, hreg, hr, hcc, Bool.and_false] at he
                simp at he
            | none =>
              exfalso
              simp only [callTool, hval, hcond, hreg, hr] at he
              simp at he
          | error e2 =>
            constructor <;> (simp only [callTool, hval, hcond, hreg, hr]; simp)
    · intro e he
      simp at he

/-- Witness for C9: an unknown-tool error leaves the cache unchanged with
no store, and a validation failure of ask_athena (missing prompt) touches
the cache neither for lookup nor for store. -/
theorem C9_witness :
    ((callTool statsHandler [] 0 "nope" []).cache = [] ∧
      (callTool statsHandler [] 0 "nope" []).cacheStores = []) ∧
    ((callTool statsHandler [] 0 "ask_athena" []).cacheLookups = [] ∧
      (callTool statsHandler [] 0 "ask_athena" []).cacheStores = [] ∧
      (callTool statsHandler [] 0 "ask_athena" []).cache = []) := by
  constructor
  · exact (C9_errors_leave_cache_unchanged statsHandler [] 0 "nope" []).1
      ⟨ErrorCode.methodNotFound, "Unknown tool: nope"⟩ (by decide)
  · exact (C9_errors_leave_cache_unchanged statsHandler [] 0 "ask_athena" []).2
      (invalidParams "Missing required field: prompt") (by decide)

end Athena
